import Mathlib

/-!
Shallow embedding of the coordinate-frame transform subsystem of the
FGStudio ThreeDeeRender panel, together with theorems checking the
natural-language specification against it.

Numeric model: message field values (translations, rotation components)
are embedded as rationals. The ingestion and bookkeeping paths verified
here copy values without arithmetic on them, so exact rationals model the
JavaScript float64 values faithfully on those paths. Timestamps are
integers (nanoseconds).

Sources embedded from src/:
  - normalizeMessages.ts (normalizeTime, normalizeVector3,
    normalizeQuaternion, normalizeTransform, normalizeHeader,
    normalizeTransformStamped, normalizeTFMessage)
  - the Renderer class (TRANSFORM_STORAGE_TIME_NS, DEFAULT_FRAME_IDS,
    defaultFrameId, addTransformMessage, the private method updateFrames)
  - the SceneExtension class (startFrame)

The transforms module (Transform, CoordinateFrame, TransformTree,
updatePose, LayerErrors) is not part of the source tree given here; its
operations are modelled from the specification, each marked
"Modelled from the spec:" in its doc comment.
-/

namespace FGS

/-- Vector3 record from the ros message model: three float64 components,
embedded as rationals. -/
structure Vector3 where
  x : ℚ
  y : ℚ
  z : ℚ
deriving DecidableEq, Repr

/-- Quaternion record from the ros message model: four float64 components,
embedded as rationals. -/
structure Quaternion where
  x : ℚ
  y : ℚ
  z : ℚ
  w : ℚ
deriving DecidableEq, Repr

/-- Transform record from the ros message model: a translation and a
rotation. -/
structure Transform where
  translation : Vector3
  rotation : Quaternion
deriving DecidableEq, Repr

/-- Time record from rostime: seconds and nanoseconds. -/
structure Time where
  sec : ℤ
  nsec : ℤ
deriving DecidableEq, Repr

/-- Header record from the ros message model. The seq field is dropped:
nothing verified here reads it. -/
structure Header where
  frame_id : String
  stamp : Time
deriving DecidableEq, Repr

/-- TransformStamped record from the ros message model. -/
structure TransformStamped where
  header : Header
  child_frame_id : String
  transform : Transform
deriving DecidableEq, Repr

/-- TFMessage record from the ros message model: a list of stamped
transforms. -/
structure TFMessage where
  transforms : List TransformStamped
deriving DecidableEq, Repr

/-- toNanoSec from rostime: converts a sec/nsec pair to nanoseconds. -/
def toNanoSec (t : Time) : ℤ :=
  t.sec * 1000000000 + t.nsec

/-! Partial (raw, undecoded) message records: every field may be absent,
mirroring the DeepPartial input types of normalizeMessages.ts. -/

/-- Partial Time: both fields optional. -/
structure PartialTime where
  sec : Option ℤ
  nsec : Option ℤ
deriving DecidableEq, Repr

/-- Partial Vector3: all components optional. -/
structure PartialVector3 where
  x : Option ℚ
  y : Option ℚ
  z : Option ℚ
deriving DecidableEq, Repr

/-- Partial Quaternion: all components optional. -/
structure PartialQuaternion where
  x : Option ℚ
  y : Option ℚ
  z : Option ℚ
  w : Option ℚ
deriving DecidableEq, Repr

/-- Partial Transform: both sub-records optional. -/
structure PartialTransform where
  translation : Option PartialVector3
  rotation : Option PartialQuaternion
deriving DecidableEq, Repr

/-- Partial Header. -/
structure PartialHeader where
  frame_id : Option String
  stamp : Option PartialTime
deriving DecidableEq, Repr

/-- Partial TransformStamped. -/
structure PartialTransformStamped where
  header : Option PartialHeader
  child_frame_id : Option String
  transform : Option PartialTransform
deriving DecidableEq, Repr

/-- Partial TFMessage. -/
structure PartialTFMessage where
  transforms : Option (List PartialTransformStamped)
deriving DecidableEq, Repr

/-- normalizeTime from normalizeMessages.ts: absent record gives zero time,
absent fields default to 0. -/
def normalizeTime : Option PartialTime → Time
  | none => { sec := 0, nsec := 0 }
  | some t => { sec := t.sec.getD 0, nsec := t.nsec.getD 0 }

/-- normalizeVector3 from normalizeMessages.ts: absent record gives the
zero vector, absent components default to 0. -/
def normalizeVector3 : Option PartialVector3 → Vector3
  | none => { x := 0, y := 0, z := 0 }
  | some v => { x := v.x.getD 0, y := v.y.getD 0, z := v.z.getD 0 }

/-- normalizeQuaternion from normalizeMessages.ts: absent record gives the
identity quaternion, but for a present record every absent component,
including w, defaults to 0. -/
def normalizeQuaternion : Option PartialQuaternion → Quaternion
  | none => { x := 0, y := 0, z := 0, w := 1 }
  | some q => { x := q.x.getD 0, y := q.y.getD 0, z := q.z.getD 0, w := q.w.getD 0 }

/-- normalizeTransform from normalizeMessages.ts. -/
def normalizeTransform (t : Option PartialTransform) : Transform :=
  { translation := normalizeVector3 (t.bind (·.translation))
    rotation := normalizeQuaternion (t.bind (·.rotation)) }

/-- normalizeHeader from normalizeMessages.ts: absent frame id defaults to
the empty string. -/
def normalizeHeader (h : Option PartialHeader) : Header :=
  { frame_id := (h.bind (·.frame_id)).getD ""
    stamp := normalizeTime (h.bind (·.stamp)) }

/-- normalizeTransformStamped from normalizeMessages.ts. -/
def normalizeTransformStamped (t : Option PartialTransformStamped) : TransformStamped :=
  { header := normalizeHeader (t.bind (·.header))
    child_frame_id := (t.bind (·.child_frame_id)).getD ""
    transform := normalizeTransform (t.bind (·.transform)) }

/-- normalizeTFMessage from normalizeMessages.ts. -/
def normalizeTFMessage (m : Option PartialTFMessage) : TFMessage :=
  { transforms := ((m.bind (·.transforms)).getD []).map (normalizeTransformStamped ∘ some) }

/-- TRANSFORM_STORAGE_TIME_NS from the Renderer source: 60n * BigInt(1e9)
nanoseconds of transform history retention. -/
def TRANSFORM_STORAGE_TIME_NS : ℤ := 60 * 1000000000

/-- DEFAULT_FRAME_IDS from the Renderer source: REP-105 preferred frame
names tried in priority order. -/
def DEFAULT_FRAME_IDS : List String := ["base_link", "odom", "map", "earth"]

/-! The transforms module is not in the given source tree; the following
definitions are modelled from the specification (sections 3, 4.2, 4.3). -/

/-- Modelled from the spec: one edge of a frame history, pairing a
nanosecond timestamp with the parent frame identifier and the transform of
the child relative to that parent (spec section 3, Frame attributes). -/
structure FrameEdge where
  stamp : ℤ
  parentId : String
  transform : Transform
deriving DecidableEq, Repr

/-- Modelled from the spec: a named frame owning a time-ordered history of
edges (spec section 3, Frame). Edges are kept sorted by non-decreasing
timestamp. -/
structure Frame where
  id : String
  edges : List FrameEdge
deriving DecidableEq, Repr

/-- Modelled from the spec: the most recent edge of a frame, none for an
empty history. -/
def Frame.latestEdge (f : Frame) : Option FrameEdge :=
  f.edges.getLast?

/-- Modelled from the spec: latestParent returns the parent id of the most
recent edge, or none if the frame has no edges (spec section 4.2). -/
def Frame.latestParent (f : Frame) : Option String :=
  (f.latestEdge).map (·.parentId)

/-- Modelled from the spec: insertion of an edge into a time-sorted edge
list; an edge already present at exactly the same timestamp is replaced
(spec section 4.2, addEdge). -/
def insertEdgeSorted (e : FrameEdge) : List FrameEdge → List FrameEdge
  | [] => [e]
  | x :: xs =>
    if e.stamp < x.stamp then e :: x :: xs
    else if e.stamp = x.stamp then e :: xs
    else x :: insertEdgeSorted e xs

/-- Modelled from the spec: Frame.addEdge inserts in time order, replacing
an edge at an identical timestamp, and returns whether the effective
parent or latest transform changed (spec section 4.2). -/
def Frame.addEdge (f : Frame) (e : FrameEdge) : Frame × Bool :=
  let f2 : Frame := { f with edges := insertEdgeSorted e f.edges }
  let changed :=
    match f.latestEdge, f2.latestEdge with
    | none, _ => true
    | some _, none => true
    | some a, some b => decide (a.parentId ≠ b.parentId ∨ a.transform ≠ b.transform)
  (f2, changed)

/-- Modelled from the spec: the forest-of-frames registry, a mapping from
frame identifier to Frame together with the retention duration in
nanoseconds (spec section 3, TransformTree). The mapping is an
insertion-ordered association list, mirroring a JavaScript Map. -/
structure TransformTree where
  maxStorageTime : ℤ
  frames : List Frame
deriving DecidableEq, Repr

/-- Modelled from the spec: hasFrame lookup (spec section 4.3). -/
def TransformTree.hasFrame (t : TransformTree) (id : String) : Bool :=
  t.frames.any (fun f => f.id = id)

/-- Modelled from the spec: frame lookup, non-mutating (spec section
4.3). -/
def TransformTree.frame (t : TransformTree) (id : String) : Option Frame :=
  t.frames.find? (fun f => f.id = id)

/-- Modelled from the spec: getOrCreateFrame is idempotent, creating an
empty frame for an unseen identifier (spec section 4.3). A new frame is
appended, preserving first-seen iteration order. -/
def TransformTree.getOrCreateFrame (t : TransformTree) (id : String) : TransformTree :=
  if t.hasFrame id then t else { t with frames := t.frames ++ [{ id := id, edges := [] }] }

/-- Modelled from the spec: replace the frame with the given identifier by
the result of applying g to it, returning whatever g paired with the new
frame. Helper for addTransform. -/
def TransformTree.updateFrame (t : TransformTree) (id : String) (g : Frame → Frame × Bool) :
    TransformTree × Bool :=
  let results := t.frames.map (fun f => if f.id = id then g f else (f, false))
  ({ t with frames := results.map Prod.fst }, results.any Prod.snd)

/-- Modelled from the spec: addTransform creates both frames if needed,
rejects self-parenting, delegates to Frame.addEdge on the child frame, and
returns whether the frame graph topology changed, a new frame or a new
parent, versus only updated timing (spec section 4.3). -/
def TransformTree.addTransform (t : TransformTree) (childId parentId : String) (stamp : ℤ)
    (tf : Transform) : TransformTree × Bool :=
  if childId = parentId then (t, false)
  else
    let newParent := !t.hasFrame parentId
    let newChild := !t.hasFrame childId
    let t1 := (t.getOrCreateFrame parentId).getOrCreateFrame childId
    let oldParent := (t1.frame childId).bind Frame.latestParent
    let (t2, _edgeChanged) :=
      t1.updateFrame childId (fun f => f.addEdge { stamp, parentId, transform := tf })
    let newParentOfChild := (t2.frame childId).bind Frame.latestParent
    (t2, newParent || newChild || decide (oldParent ≠ newParentOfChild))

/-- Modelled from the spec: follow the latestParent chain by at most the
given amount of fuel, stopping at a frame with no parent or with an
unknown parent. The fuel bounds the walk so that a cycle cannot loop
forever (spec section 4.3, root). -/
def TransformTree.rootAux (t : TransformTree) : ℕ → Frame → Frame
  | 0, f => f
  | fuel + 1, f =>
    match f.latestParent with
    | none => f
    | some pid =>
      match t.frame pid with
      | none => f
      | some p => t.rootAux fuel p

/-- Modelled from the spec: root follows the latestParent chain from a
frame until a frame with no parent is reached, guarded against cycles by
fuel equal to the number of known frames (spec section 4.3). -/
def TransformTree.rootOf (t : TransformTree) (f : Frame) : Frame :=
  t.rootAux t.frames.length f

/-- Modelled from the spec: frameList produces a display-oriented sorted
list of all known frame identifiers, used only for the UI (spec section
4.3). The grouping detail is irrelevant to every claim and is modelled as
a plain sort. -/
def TransformTree.frameList (t : TransformTree) : List String :=
  (t.frames.map Frame.id).insertionSort (fun a b => a ≤ b)

/-! Renderer state and its transform-related methods, embedded from the
Renderer class in the source. Only the fields the verified methods touch
are carried: the transform tree, the cached coordinate frame list, and
the render and fixed frame identifiers. -/

/-- State of a Renderer instance restricted to the transform subsystem:
transformTree, coordinateFrameList, renderFrameId and fixedFrameId
fields of the Renderer class. -/
structure RendererState where
  transformTree : TransformTree
  coordinateFrameList : List String
  renderFrameId : Option String
  fixedFrameId : Option String
deriving DecidableEq, Repr

/-- mapSetIncrement models rootsToCounts.set(rootId, (get(rootId) ?? 0)+1)
on a JavaScript Map embedded as an insertion-ordered association list: an
existing key is updated in place, a new key is appended. -/
def mapSetIncrement (m : List (String × ℕ)) (k : String) : List (String × ℕ) :=
  if m.any (fun p => p.1 = k) then
    m.map (fun p => if p.1 = k then (p.1, p.2 + 1) else p)
  else m ++ [(k, 1)]

/-- byCountDesc is the sort order of the comparator (a, b) => b[1] - a[1]
used in defaultFrameId: larger counts first. JavaScript Array sort is
stable, modelled by a stable insertion sort under this relation. -/
def byCountDesc (a b : String × ℕ) : Prop := b.2 ≤ a.2

instance : DecidableRel byCountDesc := fun a b => inferInstanceAs (Decidable (b.2 ≤ a.2))

instance : IsTotal (String × ℕ) byCountDesc := ⟨fun a b => le_total b.2 a.2⟩

instance : IsTrans (String × ℕ) byCountDesc := ⟨fun _ _ _ h1 h2 => le_trans h2 h1⟩

/-- rootsToCounts of defaultFrameId: for every known frame compute its
root and count how many frames share each root, in first-seen order. -/
def TransformTree.rootsToCounts (t : TransformTree) : List (String × ℕ) :=
  t.frames.foldl (fun m f => mapSetIncrement m (t.rootOf f).id) []

/-- defaultFrameId from the Renderer source: the first REP-105 preferred
frame name present in the tree, else the root frame with the most frames
under it, else none when the tree is empty. -/
def RendererState.defaultFrameId (r : RendererState) : Option String :=
  match DEFAULT_FRAME_IDS.findSome? (fun fid => (r.transformTree.frame fid).map Frame.id) with
  | some id => some id
  | none =>
    let rootsArray := r.transformTree.rootsToCounts.insertionSort byCountDesc
    rootsArray.head?.map Prod.fst

/-- addTransformMessage from the Renderer source. The returned boolean
records whether the transformTreeUpdated event was emitted; in every
branch that emits, the cached coordinateFrameList is rebuilt first. -/
def RendererState.addTransformMessage (r : RendererState) (tf : TransformStamped) :
    RendererState × Bool :=
  let addParent := !r.transformTree.hasFrame tf.header.frame_id
  let addChild := !r.transformTree.hasFrame tf.child_frame_id
  let stamp := toNanoSec tf.header.stamp
  let t := tf.transform.translation
  let q := tf.transform.rotation
  let transform : Transform :=
    { translation := ⟨t.x, t.y, t.z⟩, rotation := ⟨q.x, q.y, q.z, q.w⟩ }
  let result := r.transformTree.addTransform tf.child_frame_id tf.header.frame_id stamp transform
  let tree := result.1
  let updated := result.2
  if addParent || addChild then
    ({ r with transformTree := tree, coordinateFrameList := tree.frameList }, true)
  else if updated then
    ({ r with transformTree := tree, coordinateFrameList := tree.frameList }, true)
  else
    ({ r with transformTree := tree }, false)

/-- updateFrames embeds the private method Renderer._updateFrames: when no
render frame is set it is chosen by defaultFrameId; then the fixed frame
is the root of the render frame, or none when the render frame is absent
from the tree. -/
def RendererState.updateFrames (r0 : RendererState) : RendererState :=
  let r := if r0.renderFrameId = none then { r0 with renderFrameId := r0.defaultFrameId } else r0
  match r.renderFrameId with
  | none => { r with fixedFrameId := none }
  | some rid =>
    match r.transformTree.frame rid with
    | none => { r with fixedFrameId := none }
    | some f => { r with fixedFrameId := some (r.transformTree.rootOf f).id }

/-! SceneExtension.startFrame embedding. The per-renderable state that the
method touches is flattened out of renderable.userData. -/

/-- Pose applied to a renderable: position and orientation. -/
structure Pose where
  position : Vector3
  orientation : Quaternion
deriving DecidableEq, Repr

/-- BaseSettings of a renderable: the user visibility toggle and the
optional frameLocked flag. -/
structure RenderableSettings where
  visible : Bool
  frameLocked : Option Bool
deriving DecidableEq, Repr

/-- Renderable userData fields read or written by startFrame: the settings
path, the settings, the coordinate frame id, the message time, the
Object3D visible flag and the applied pose. -/
structure Renderable where
  settingsPath : List String
  settings : RenderableSettings
  frameId : String
  messageTime : ℤ
  visible : Bool
  pose : Pose
deriving DecidableEq, Repr

/-- Modelled from the spec: per-renderable keyed error state, keyed by an
opaque path plus a fixed error code (spec section 6, diagnostics out).
One entry per path and error code pair. -/
structure ErrorEntry where
  path : List String
  errorId : String
  message : String
deriving DecidableEq, Repr

/-- Modelled from the spec: the collection of layer error entries held by
the settings manager. -/
structure LayerErrorState where
  entries : List ErrorEntry
deriving DecidableEq, Repr

/-- Modelled from the spec: remove the error entry at a path under an
error code, if present. -/
def LayerErrorState.remove (es : LayerErrorState) (path : List String) (errorId : String) :
    LayerErrorState :=
  { entries := es.entries.filter (fun e => ¬(e.path = path ∧ e.errorId = errorId)) }

/-- Modelled from the spec: record an error at a path under an error code,
replacing an existing entry with the same key. The error state is keyed
present/absent, so replacement is modelled as removal followed by
insertion. -/
def LayerErrorState.add (es : LayerErrorState) (path : List String) (errorId message : String) :
    LayerErrorState :=
  { entries := (es.remove path errorId).entries ++ [{ path, errorId, message }] }

/-- Modelled from the spec: clear every error entry recorded at a path. -/
def LayerErrorState.clearPath (es : LayerErrorState) (path : List String) : LayerErrorState :=
  { entries := es.entries.filter (fun e => e.path ≠ path) }

/-- hasError reports whether an entry with the given path and error code
is present. -/
def LayerErrorState.hasError (es : LayerErrorState) (path : List String) (errorId : String) :
    Bool :=
  es.entries.any (fun e => e.path = path ∧ e.errorId = errorId)

/-- messageAt returns the recorded message for the given path and error
code, if any. -/
def LayerErrorState.messageAt (es : LayerErrorState) (path : List String) (errorId : String) :
    Option String :=
  (es.entries.find? (fun e => e.path = path ∧ e.errorId = errorId)).map (·.message)

/-- Modelled from the spec: the fixed error code for the missing transform
diagnostic. -/
def MISSING_TRANSFORM : String := "MISSING_TRANSFORM"

/-- Modelled from the spec: the diagnostic message for a failed pose
resolution, naming the render frame, the fixed frame and the frame of the
renderable (spec section 4.4, step 5). -/
def missingTransformMessage (renderFrameId fixedFrameId frameId : String) : String :=
  "missing transform from frame <" ++ frameId ++ "> to fixed frame <" ++ fixedFrameId ++
    "> to render frame <" ++ renderFrameId ++ ">"

/-- Modelled from the spec: the updatePose pipeline (spec section 4.4) is
not in the given source tree and is abstracted as an oracle. Arguments
mirror the call site in startFrame: renderable, transform tree, render
frame id, fixed frame id, renderable frame id, current time, source time.
The oracle returns the resolved pose on success and none on failure;
startFrame applies the returned pose, mirroring updatePose mutating the
renderable on success and leaving it untouched on failure. -/
abbrev UpdatePoseFn : Type :=
  Renderable → TransformTree → String → String → String → ℤ → ℤ → Option Pose

/-- srcTimeOf embeds the source-time computation of startFrame: the
current render time when the renderable is frame-locked, otherwise the
message time of the renderable; an unspecified frameLocked setting
defaults to true. -/
def srcTimeOf (currentTime : ℤ) (r : Renderable) : ℤ :=
  let frameLocked := r.settings.frameLocked.getD true
  if frameLocked then currentTime else r.messageTime

/-- startFrameStep is the body of the per-renderable loop of
SceneExtension.startFrame: it threads the layer error state and collects
the processed renderables in order. -/
def startFrameStep (upd : UpdatePoseFn) (tree : TransformTree) (currentTime : ℤ)
    (renderFrameId fixedFrameId : String) (st : LayerErrorState × List Renderable)
    (r0 : Renderable) : LayerErrorState × List Renderable :=
  let errors := st.1
  let done := st.2
  let path := r0.settingsPath
  let r := { r0 with visible := r0.settings.visible }
  if !r.visible then
    (errors.clearPath path, done ++ [r])
  else
    let srcTime := srcTimeOf currentTime r
    let frameId := r.frameId
    match upd r tree renderFrameId fixedFrameId frameId currentTime srcTime with
    | none =>
      let message := missingTransformMessage renderFrameId fixedFrameId frameId
      (errors.add path MISSING_TRANSFORM message, done ++ [r])
    | some p =>
      (errors.remove path MISSING_TRANSFORM, done ++ [{ r with pose := p }])

/-- startFrame from the SceneExtension source: processes every renderable
in order with startFrameStep. -/
def startFrame (upd : UpdatePoseFn) (tree : TransformTree) (currentTime : ℤ)
    (renderFrameId fixedFrameId : String) (errors : LayerErrorState)
    (renderables : List Renderable) : LayerErrorState × List Renderable :=
  renderables.foldl (startFrameStep upd tree currentTime renderFrameId fixedFrameId) (errors, [])

/-- initialTransformTree embeds the Renderer field initializer
transformTree = new TransformTree(TRANSFORM_STORAGE_TIME_NS). -/
def initialTransformTree : TransformTree :=
  { maxStorageTime := TRANSFORM_STORAGE_TIME_NS, frames := [] }

/-! Helper lemmas about the layer error state. -/

theorem LayerErrorState.hasError_remove_self (es : LayerErrorState) (path : List String)
    (errorId : String) : (es.remove path errorId).hasError path errorId = false := by
  simp only [LayerErrorState.remove, LayerErrorState.hasError]
  rw [List.any_eq_false]
  intro e he
  have hkeep := (List.mem_filter.mp he).2
  simp only [decide_eq_true_eq] at hkeep ⊢
  exact hkeep

theorem LayerErrorState.hasError_add_self (es : LayerErrorState) (path : List String)
    (errorId message : String) : (es.add path errorId message).hasError path errorId = true := by
  simp [LayerErrorState.add, LayerErrorState.hasError]

theorem LayerErrorState.messageAt_add_self (es : LayerErrorState) (path : List String)
    (errorId message : String) :
    (es.add path errorId message).messageAt path errorId = some message := by
  simp only [LayerErrorState.add, LayerErrorState.messageAt, LayerErrorState.remove]
  have h : (es.entries.filter (fun e => ¬(e.path = path ∧ e.errorId = errorId))).find?
      (fun e => e.path = path ∧ e.errorId = errorId) = none := by
    rw [List.find?_eq_none]
    intro e he
    have hkeep := (List.mem_filter.mp he).2
    simp only [decide_eq_true_eq] at hkeep ⊢
    exact hkeep
  rw [List.find?_append, h]
  simp

/-- C8: the Renderer constructs its TransformTree with a retention window
of exactly 60 seconds expressed in nanoseconds. -/
theorem C8_retention_window :
    initialTransformTree.maxStorageTime = 60 * 10 ^ 9 ∧
    TRANSFORM_STORAGE_TIME_NS = 60 * 10 ^ 9 := by
  constructor <;> norm_num [initialTransformTree, TRANSFORM_STORAGE_TIME_NS]

/-- C10: normalizeQuaternion returns the identity quaternion for an absent
argument, but for a present record every missing component, including w,
defaults to 0, so a present-but-empty rotation object normalizes to the
all-zero non-unit quaternion rather than to identity; normalizeTransform
inherits this behavior for its rotation field. -/
theorem C10_normalizeQuaternion_defaults :
    normalizeQuaternion none = { x := 0, y := 0, z := 0, w := 1 } ∧
    (∀ q : PartialQuaternion, normalizeQuaternion (some q) =
      { x := q.x.getD 0, y := q.y.getD 0, z := q.z.getD 0, w := q.w.getD 0 }) ∧
    normalizeQuaternion (some { x := none, y := none, z := none, w := none }) =
      { x := 0, y := 0, z := 0, w := 0 } ∧
    normalizeQuaternion (some { x := none, y := none, z := none, w := none }) ≠
      normalizeQuaternion none ∧
    (normalizeTransform
        (some { translation := none,
                rotation := some { x := none, y := none, z := none, w := none } })).rotation =
      { x := 0, y := 0, z := 0, w := 0 } := by
  refine ⟨rfl, fun q => rfl, rfl, ?_, rfl⟩
  decide

/-- C9: a renderable whose settings leave frameLocked unspecified is
treated as frame-locked: its source time is the current render time, not
its message timestamp. -/
theorem C9_frameLocked_default (currentTime : ℤ) (r : Renderable)
    (h : r.settings.frameLocked = none) : srcTimeOf currentTime r = currentTime := by
  simp [srcTimeOf, h]

theorem C9_witness :
    ({ settingsPath := ["topics", "a"],
       settings := { visible := true, frameLocked := none },
       frameId := "body", messageTime := 3, visible := true,
       pose := { position := { x := 0, y := 0, z := 0 },
                 orientation := { x := 0, y := 0, z := 0, w := 1 } } } :
        Renderable).settings.frameLocked = none ∧
    srcTimeOf 7
      { settingsPath := ["topics", "a"],
        settings := { visible := true, frameLocked := none },
        frameId := "body", messageTime := 3, visible := true,
        pose := { position := { x := 0, y := 0, z := 0 },
                  orientation := { x := 0, y := 0, z := 0, w := 1 } } } = 7 :=
  ⟨rfl, C9_frameLocked_default 7 _ rfl⟩

/-- C1: for every visible renderable processed by startFrame, updatePose
is applied at source time srcTimeOf, which equals the current render time
when the renderable is frame-locked and the message time of the renderable
when it is not. -/
theorem C1_source_time (upd : UpdatePoseFn) (tree : TransformTree) (currentTime : ℤ)
    (renderFrameId fixedFrameId : String) (errors : LayerErrorState) (done : List Renderable)
    (r : Renderable) (hvis : r.settings.visible = true) :
    startFrameStep upd tree currentTime renderFrameId fixedFrameId (errors, done) r =
      (match upd { r with visible := true } tree renderFrameId fixedFrameId r.frameId
          currentTime (srcTimeOf currentTime r) with
       | none => (errors.add r.settingsPath MISSING_TRANSFORM
           (missingTransformMessage renderFrameId fixedFrameId r.frameId),
           done ++ [{ r with visible := true }])
       | some p => (errors.remove r.settingsPath MISSING_TRANSFORM,
           done ++ [{ r with visible := true, pose := p }])) ∧
    (r.settings.frameLocked.getD true = true → srcTimeOf currentTime r = currentTime) ∧
    (r.settings.frameLocked.getD true = false →
      srcTimeOf currentTime r = r.messageTime) := by
  refine ⟨?_, fun h => by simp [srcTimeOf, h], fun h => by simp [srcTimeOf, h]⟩
  simp only [startFrameStep, hvis]
  rfl

/-- C2: for a visible renderable, when updatePose fails the missing
transform diagnostic naming the render frame, the fixed frame and the
frame of the renderable is recorded at the settings path of the renderable
and its pose is left untouched; when updatePose succeeds the resulting
pose is applied and the missing transform diagnostic at that path is
removed. -/
theorem C2_missing_transform_diag (upd : UpdatePoseFn) (tree : TransformTree) (currentTime : ℤ)
    (renderFrameId fixedFrameId : String) (errors : LayerErrorState) (done : List Renderable)
    (r : Renderable) (hvis : r.settings.visible = true) :
    (upd { r with visible := true } tree renderFrameId fixedFrameId r.frameId currentTime
        (srcTimeOf currentTime r) = none →
      (startFrameStep upd tree currentTime renderFrameId fixedFrameId (errors, done) r).1.hasError
          r.settingsPath MISSING_TRANSFORM = true ∧
      (startFrameStep upd tree currentTime renderFrameId fixedFrameId (errors, done) r).1.messageAt
          r.settingsPath MISSING_TRANSFORM =
        some (missingTransformMessage renderFrameId fixedFrameId r.frameId) ∧
      (startFrameStep upd tree currentTime renderFrameId fixedFrameId (errors, done) r).2 =
        done ++ [{ r with visible := true }]) ∧
    (∀ p, upd { r with visible := true } tree renderFrameId fixedFrameId r.frameId currentTime
        (srcTimeOf currentTime r) = some p →
      (startFrameStep upd tree currentTime renderFrameId fixedFrameId (errors, done) r).1.hasError
          r.settingsPath MISSING_TRANSFORM = false ∧
      (startFrameStep upd tree currentTime renderFrameId fixedFrameId (errors, done) r).2 =
        done ++ [{ r with visible := true, pose := p }]) := by
  constructor
  · intro h
    simp only [startFrameStep, hvis]
    rw [show srcTimeOf currentTime { r with visible := true } = srcTimeOf currentTime r
      from rfl]
    rw [h]
    exact ⟨LayerErrorState.hasError_add_self _ _ _ _,
      LayerErrorState.messageAt_add_self _ _ _ _, rfl⟩
  · intro p h
    simp only [startFrameStep, hvis]
    rw [show srcTimeOf currentTime { r with visible := true } = srcTimeOf currentTime r
      from rfl]
    rw [h]
    exact ⟨LayerErrorState.hasError_remove_self _ _ _, rfl⟩

/-! Concrete fixtures shared by witness theorems. -/

/-- pose0 is an identity pose used by witness evaluations. -/
def pose0 : Pose :=
  { position := { x := 0, y := 0, z := 0 }, orientation := { x := 0, y := 0, z := 0, w := 1 } }

/-- tree0 is an empty transform tree used by witness evaluations. -/
def tree0 : TransformTree := { maxStorageTime := 0, frames := [] }

/-- errors0 is an empty layer error state used by witness evaluations. -/
def errors0 : LayerErrorState := { entries := [] }

/-- sampleRenderable is a visible, not frame-locked renderable used by
witness evaluations. -/
def sampleRenderable : Renderable :=
  { settingsPath := ["topics", "b"],
    settings := { visible := true, frameLocked := some false },
    frameId := "cam", messageTime := 11, visible := false, pose := pose0 }

/-- updNone is an updatePose oracle that always fails. -/
def updNone : UpdatePoseFn := fun _ _ _ _ _ _ _ => none

/-- updConst is an updatePose oracle that always resolves pose0. -/
def updConst : UpdatePoseFn := fun _ _ _ _ _ _ _ => some pose0

theorem C1_witness :
    sampleRenderable.settings.visible = true ∧
    startFrameStep updNone tree0 9 "render" "fixed" (errors0, []) sampleRenderable =
      (errors0.add ["topics", "b"] MISSING_TRANSFORM
        (missingTransformMessage "render" "fixed" "cam"),
       [{ sampleRenderable with visible := true }]) ∧
    srcTimeOf 9 sampleRenderable = 11 :=
  ⟨rfl,
   (C1_source_time updNone tree0 9 "render" "fixed" errors0 [] sampleRenderable rfl).1,
   (C1_source_time updNone tree0 9 "render" "fixed" errors0 [] sampleRenderable rfl).2.2 rfl⟩

theorem C2_witness :
    sampleRenderable.settings.visible = true ∧
    (startFrameStep updConst tree0 9 "render" "fixed" (errors0, []) sampleRenderable).1.hasError
        ["topics", "b"] MISSING_TRANSFORM = false ∧
    (startFrameStep updConst tree0 9 "render" "fixed" (errors0, []) sampleRenderable).2 =
      [{ sampleRenderable with visible := true, pose := pose0 }] :=
  ⟨rfl,
   ((C2_missing_transform_diag updConst tree0 9 "render" "fixed" errors0 [] sampleRenderable
      rfl).2 pose0 rfl).1,
   ((C2_missing_transform_diag updConst tree0 9 "render" "fixed" errors0 [] sampleRenderable
      rfl).2 pose0 rfl).2⟩

/-- C6: addTransformMessage emits the transformTreeUpdated event and
rebuilds the coordinate frame list exactly when the ingested transform
created a previously absent parent or child frame or addTransform reported
an update; otherwise no event is emitted and the cached frame list is left
unchanged. -/
theorem C6_transform_tree_updated (r : RendererState) (tf : TransformStamped) :
    ((r.addTransformMessage tf).2 =
      (!r.transformTree.hasFrame tf.header.frame_id ||
       !r.transformTree.hasFrame tf.child_frame_id ||
       (r.transformTree.addTransform tf.child_frame_id tf.header.frame_id
         (toNanoSec tf.header.stamp) tf.transform).2)) ∧
    ((r.addTransformMessage tf).2 = false →
      (r.addTransformMessage tf).1.coordinateFrameList = r.coordinateFrameList) ∧
    ((r.addTransformMessage tf).2 = true →
      (r.addTransformMessage tf).1.coordinateFrameList =
        (r.transformTree.addTransform tf.child_frame_id tf.header.frame_id
          (toNanoSec tf.header.stamp) tf.transform).1.frameList) := by
  simp only [RendererState.addTransformMessage]
  rw [show (Transform.mk
      ⟨tf.transform.translation.x, tf.transform.translation.y, tf.transform.translation.z⟩
      ⟨tf.transform.rotation.x, tf.transform.rotation.y, tf.transform.rotation.z,
        tf.transform.rotation.w⟩) = tf.transform from rfl]
  cases h1 : r.transformTree.hasFrame tf.header.frame_id <;>
    cases h2 : r.transformTree.hasFrame tf.child_frame_id <;>
      cases hu : (r.transformTree.addTransform tf.child_frame_id tf.header.frame_id
        (toNanoSec tf.header.stamp) tf.transform).2 <;>
    simp [h1, h2, hu]

/-- find_map_id_aux: looking up a frame by identifier and projecting its
identifier yields the looked-up identifier exactly when some frame
matches. -/
theorem find_map_id_aux (fid : String) (l : List Frame) :
    ((l.find? (fun f => f.id = fid)).map Frame.id) =
      if l.any (fun f => f.id = fid) then some fid else none := by
  induction l with
  | nil => rfl
  | cons f fs ih =>
    by_cases h : f.id = fid
    · simp [List.find?_cons, List.any_cons, h]
    · simp [List.find?_cons, List.any_cons, h, ih]

/-- frame_map_id evaluates the frame lookup used by defaultFrameId: the
identifier of a found frame is the identifier that was looked up. -/
theorem TransformTree.frame_map_id (t : TransformTree) (fid : String) :
    (t.frame fid).map Frame.id = if t.hasFrame fid then some fid else none := by
  simp only [TransformTree.frame, TransformTree.hasFrame]
  exact find_map_id_aux fid t.frames

/-- C3: whenever at least one REP-105 canonical frame name exists in the
tree, defaultFrameId returns the first name of the priority list
base_link, odom, map, earth that is present, without using the
root-counting fallback. -/
theorem C3_preferred_frame (r : RendererState)
    (h : ∃ fid ∈ DEFAULT_FRAME_IDS, r.transformTree.hasFrame fid = true) :
    r.defaultFrameId =
      DEFAULT_FRAME_IDS.find? (fun fid => r.transformTree.hasFrame fid) := by
  cases h1 : r.transformTree.hasFrame "base_link" <;>
    cases h2 : r.transformTree.hasFrame "odom" <;>
      cases h3 : r.transformTree.hasFrame "map" <;>
        cases h4 : r.transformTree.hasFrame "earth" <;>
    simp_all [RendererState.defaultFrameId, DEFAULT_FRAME_IDS, List.findSome?_cons,
      List.find?_cons, TransformTree.frame_map_id]

theorem C3_witness :
    (∃ fid ∈ DEFAULT_FRAME_IDS,
      ({ transformTree := { maxStorageTime := 0, frames := [{ id := "odom", edges := [] }] },
         coordinateFrameList := [], renderFrameId := none,
         fixedFrameId := none } : RendererState).transformTree.hasFrame fid = true) ∧
    ({ transformTree := { maxStorageTime := 0, frames := [{ id := "odom", edges := [] }] },
       coordinateFrameList := [], renderFrameId := none,
       fixedFrameId := none } : RendererState).defaultFrameId = some "odom" :=
  ⟨by decide, C3_preferred_frame _ (by decide)⟩

/-- C5 counterexample: in a state whose configured render frame names a
frame absent from the tree while a preferred frame is available, a frame
update does not re-evaluate the selection policy: the stale render frame
is kept, no new render frame is chosen, and only the fixed frame is
cleared. -/
theorem C5_counterexample :
    ({ transformTree := { maxStorageTime := 0, frames := [{ id := "base_link", edges := [] }] },
       coordinateFrameList := [], renderFrameId := some "ghost",
       fixedFrameId := some "base_link" } : RendererState).transformTree.hasFrame "ghost" =
      false ∧
    ({ transformTree := { maxStorageTime := 0, frames := [{ id := "base_link", edges := [] }] },
       coordinateFrameList := [], renderFrameId := some "ghost",
       fixedFrameId := some "base_link" } : RendererState).defaultFrameId = some "base_link" ∧
    ({ transformTree := { maxStorageTime := 0, frames := [{ id := "base_link", edges := [] }] },
       coordinateFrameList := [], renderFrameId := some "ghost",
       fixedFrameId := some "base_link" } : RendererState).updateFrames.renderFrameId =
      some "ghost" ∧
    ({ transformTree := { maxStorageTime := 0, frames := [{ id := "base_link", edges := [] }] },
       coordinateFrameList := [], renderFrameId := some "ghost",
       fixedFrameId := some "base_link" } : RendererState).updateFrames.fixedFrameId =
      none := by
  decide

/-- C5 amended: the default-frame selection policy runs on a frame update
only when no render frame is currently set, as on first data arrival;
when the configured render frame names a frame absent from the tree, the
render frame is left unchanged, no new render frame is chosen, and the
fixed frame is set to undefined. -/
theorem C5_amended_selection (r : RendererState) :
    (r.renderFrameId = none → r.updateFrames.renderFrameId = r.defaultFrameId) ∧
    (∀ rid, r.renderFrameId = some rid → r.transformTree.frame rid = none →
      r.updateFrames.renderFrameId = some rid ∧ r.updateFrames.fixedFrameId = none) := by
  constructor
  · intro h
    simp only [RendererState.updateFrames, h]
    cases hd : r.defaultFrameId with
    | none => simp [hd]
    | some rid => cases hf : r.transformTree.frame rid <;> simp [hd, hf]
  · intro rid h hf
    simp [RendererState.updateFrames, h, hf]

theorem C5_witness :
    ({ transformTree := { maxStorageTime := 0, frames := [{ id := "odom", edges := [] }] },
       coordinateFrameList := [], renderFrameId := none,
       fixedFrameId := none } : RendererState).updateFrames.renderFrameId =
      ({ transformTree := { maxStorageTime := 0, frames := [{ id := "odom", edges := [] }] },
         coordinateFrameList := [], renderFrameId := none,
         fixedFrameId := none } : RendererState).defaultFrameId ∧
    ({ transformTree := { maxStorageTime := 0, frames := [{ id := "odom", edges := [] }] },
       coordinateFrameList := [], renderFrameId := some "ghost",
       fixedFrameId := none } : RendererState).updateFrames.renderFrameId = some "ghost" ∧
    ({ transformTree := { maxStorageTime := 0, frames := [{ id := "odom", edges := [] }] },
       coordinateFrameList := [], renderFrameId := some "ghost",
       fixedFrameId := none } : RendererState).updateFrames.fixedFrameId = none :=
  ⟨(C5_amended_selection _).1 rfl,
   ((C5_amended_selection _).2 "ghost" rfl (by decide)).1,
   ((C5_amended_selection _).2 "ghost" rfl (by decide)).2⟩

theorem C6_witness :
    (({ transformTree := { maxStorageTime := 0, frames := [] },
        coordinateFrameList := [], renderFrameId := none,
        fixedFrameId := none } : RendererState).addTransformMessage
      { header := { frame_id := "map", stamp := { sec := 0, nsec := 0 } },
        child_frame_id := "body",
        transform := { translation := { x := 1, y := 0, z := 0 },
                       rotation := { x := 0, y := 0, z := 0, w := 1 } } }).2 =
      (!(({ maxStorageTime := 0, frames := [] } : TransformTree).hasFrame "map") ||
       !(({ maxStorageTime := 0, frames := [] } : TransformTree).hasFrame "body") ||
       (({ maxStorageTime := 0, frames := [] } : TransformTree).addTransform "body" "map" 0
         { translation := { x := 1, y := 0, z := 0 },
           rotation := { x := 0, y := 0, z := 0, w := 1 } }).2) ∧
    (({ transformTree := { maxStorageTime := 0, frames := [] },
        coordinateFrameList := [], renderFrameId := none,
        fixedFrameId := none } : RendererState).addTransformMessage
      { header := { frame_id := "map", stamp := { sec := 0, nsec := 0 } },
        child_frame_id := "body",
        transform := { translation := { x := 1, y := 0, z := 0 },
                       rotation := { x := 0, y := 0, z := 0, w := 1 } } }).1.coordinateFrameList =
      (({ maxStorageTime := 0, frames := [] } : TransformTree).addTransform "body" "map" 0
        { translation := { x := 1, y := 0, z := 0 },
          rotation := { x := 0, y := 0, z := 0, w := 1 } }).1.frameList :=
  ⟨(C6_transform_tree_updated _ _).1, (C6_transform_tree_updated _ _).2.2 (by decide)⟩

/-! Lemmas used to settle the ingestion-validation claim. -/

theorem hasFrame_getOrCreateFrame_self (t : TransformTree) (id : String) :
    (t.getOrCreateFrame id).hasFrame id = true := by
  simp only [TransformTree.getOrCreateFrame]
  by_cases h : t.hasFrame id
  · simp [h]
  · simp only [h, if_false, Bool.false_eq_true]
    simp [TransformTree.hasFrame, List.any_append]

theorem hasFrame_getOrCreateFrame_mono (t : TransformTree) (id id2 : String)
    (h : t.hasFrame id2 = true) : (t.getOrCreateFrame id).hasFrame id2 = true := by
  simp only [TransformTree.getOrCreateFrame]
  by_cases hc : t.hasFrame id
  · simpa [hc] using h
  · simp only [hc, if_false, Bool.false_eq_true]
    simp only [TransformTree.hasFrame, List.any_append] at h ⊢
    simp [h]

theorem find_map_update (p : Frame → Bool) (m : Frame → Frame) (l : List Frame)
    (hp : ∀ f, p (m f) = p f) :
    (l.map m).find? p = (l.find? p).map m := by
  induction l with
  | nil => rfl
  | cons f fs ih =>
    by_cases h : p f = true
    · simp [List.find?_cons, h, hp]
    · have hmf : p (m f) = false := by rw [hp]; simpa using h
      have hf : p f = false := by simpa using h
      simp [List.find?_cons, hmf, hf, ih]

theorem frame_updateFrame_self (t : TransformTree) (id : String) (g : Frame → Frame × Bool)
    (hg : ∀ f, ((g f).1).id = f.id) :
    (t.updateFrame id g).1.frame id =
      (t.frame id).map (fun f => if f.id = id then (g f).1 else f) := by
  have hp : ∀ f : Frame,
      (decide ((if f.id = id then (g f).1 else f).id = id) : Bool) = decide (f.id = id) := by
    intro f
    by_cases h : f.id = id
    · simp [h, hg]
    · simp [h]
  simp only [TransformTree.updateFrame, TransformTree.frame, List.map_map]
  have hcomp : (Prod.fst ∘ fun f => if f.id = id then g f else (f, false)) =
      (fun f => if f.id = id then (g f).1 else f) := by
    funext f
    by_cases h : f.id = id <;> simp [h]
  rw [hcomp, find_map_update (fun f => decide (f.id = id))
    (fun f => if f.id = id then (g f).1 else f) t.frames hp]

theorem mem_insertEdgeSorted (e : FrameEdge) (l : List FrameEdge) :
    e ∈ insertEdgeSorted e l := by
  induction l with
  | nil => simp [insertEdgeSorted]
  | cons x xs ih =>
    simp only [insertEdgeSorted]
    by_cases h1 : e.stamp < x.stamp
    · simp [h1]
    · by_cases h2 : e.stamp = x.stamp
      · simp [h1, h2]
      · simp [h1, h2, List.mem_cons, ih]

theorem frame_isSome_of_hasFrame (t : TransformTree) (id : String)
    (h : t.hasFrame id = true) : ∃ f, t.frame id = some f ∧ f.id = id := by
  simp only [TransformTree.hasFrame, List.any_eq_true] at h
  obtain ⟨f, hmem, hpf⟩ := h
  simp only [TransformTree.frame]
  have : (t.frames.find? (fun f => f.id = id)).isSome = true := by
    rw [List.find?_isSome]
    exact ⟨f, hmem, hpf⟩
  obtain ⟨g, hg⟩ := Option.isSome_iff_exists.mp this
  refine ⟨g, hg, ?_⟩
  have := List.find?_some hg
  simpa using this

theorem addTransform_child_edge (t : TransformTree) (childId parentId : String) (stamp : ℤ)
    (tf : Transform) (h : childId ≠ parentId) :
    ∃ f, (t.addTransform childId parentId stamp tf).1.frame childId = some f ∧
      ({ stamp := stamp, parentId := parentId, transform := tf } : FrameEdge) ∈ f.edges := by
  simp only [TransformTree.addTransform, h, if_false]
  have hhas : ((t.getOrCreateFrame parentId).getOrCreateFrame childId).hasFrame childId = true :=
    hasFrame_getOrCreateFrame_self _ _
  obtain ⟨f0, hf0, hid0⟩ := frame_isSome_of_hasFrame _ _ hhas
  rw [frame_updateFrame_self _ _ _ (fun f => rfl), hf0]
  refine ⟨_, rfl, ?_⟩
  simp only [hid0, if_true, Frame.addEdge]
  exact mem_insertEdgeSorted _ _

/-- C7 counterexample: a transform record whose rotation object is present
but empty normalizes to the all-zero, non-normalizable quaternion, and
ingestion does not reject it: the frames are created, the edge carrying
the all-zero rotation is stored in the child frame history, and the update
event is emitted. -/
theorem C7_counterexample :
    (normalizeTransformStamped
      (some { header := some { frame_id := some "map", stamp := none },
              child_frame_id := some "body",
              transform := some { translation := none,
                                  rotation := some { x := none, y := none, z := none,
                                                     w := none } } })).transform.rotation =
      { x := 0, y := 0, z := 0, w := 0 } ∧
    (({ transformTree := { maxStorageTime := 0, frames := [] },
        coordinateFrameList := [], renderFrameId := none,
        fixedFrameId := none } : RendererState).addTransformMessage
      (normalizeTransformStamped
        (some { header := some { frame_id := some "map", stamp := none },
                child_frame_id := some "body",
                transform := some { translation := none,
                                    rotation := some { x := none, y := none, z := none,
                                                       w := none } } }))).2 = true ∧
    ((({ transformTree := { maxStorageTime := 0, frames := [] },
         coordinateFrameList := [], renderFrameId := none,
         fixedFrameId := none } : RendererState).addTransformMessage
      (normalizeTransformStamped
        (some { header := some { frame_id := some "map", stamp := none },
                child_frame_id := some "body",
                transform := some { translation := none,
                                    rotation := some { x := none, y := none, z := none,
                                                       w := none } } }))).1.transformTree.frame
        "body").map Frame.edges =
      some [{ stamp := 0, parentId := "map",
              transform := { translation := { x := 0, y := 0, z := 0 },
                             rotation := { x := 0, y := 0, z := 0, w := 0 } } }] := by
  refine ⟨rfl, ?_, ?_⟩ <;> decide

/-- C7 amended: ingestion performs no validation of transform values: no
finiteness or normalizability check exists on the path from normalization
through addTransformMessage into the tree; components missing from the raw
record default to 0, and for every record whose child and parent differ
the edge, whatever its rotation, is stored in the child frame history. -/
theorem C7_amended_no_validation (st : RendererState) (tf : TransformStamped)
    (h : tf.child_frame_id ≠ tf.header.frame_id) :
    ∃ f, (st.addTransformMessage tf).1.transformTree.frame tf.child_frame_id = some f ∧
      ({ stamp := toNanoSec tf.header.stamp, parentId := tf.header.frame_id,
         transform := tf.transform } : FrameEdge) ∈ f.edges := by
  have htree : (st.addTransformMessage tf).1.transformTree =
      (st.transformTree.addTransform tf.child_frame_id tf.header.frame_id
        (toNanoSec tf.header.stamp) tf.transform).1 := by
    simp only [RendererState.addTransformMessage]
    rw [show (Transform.mk
        ⟨tf.transform.translation.x, tf.transform.translation.y, tf.transform.translation.z⟩
        ⟨tf.transform.rotation.x, tf.transform.rotation.y, tf.transform.rotation.z,
          tf.transform.rotation.w⟩) = tf.transform from rfl]
    split
    · rfl
    · split <;> rfl
  rw [htree]
  exact addTransform_child_edge st.transformTree tf.child_frame_id tf.header.frame_id
    (toNanoSec tf.header.stamp) tf.transform h

/-! Machinery for the root-counting fallback of defaultFrameId. -/

/-- rootIds lists the root identifier of every known frame, in frame
iteration order. -/
def TransformTree.rootIds (t : TransformTree) : List String :=
  t.frames.map (fun f => (t.rootOf f).id)

/-- countRootId counts the known frames whose root has the given
identifier. -/
def TransformTree.countRootId (t : TransformTree) (x : String) : ℕ :=
  (t.frames.filter (fun f => (t.rootOf f).id = x)).length

/-- alLookup looks a key up in an association list, returning its value. -/
def alLookup (m : List (String × ℕ)) (k : String) : Option ℕ :=
  (m.find? (fun p => p.1 = k)).map Prod.snd

/-- KeysNodup states that the keys of an association list are distinct. -/
def KeysNodup (m : List (String × ℕ)) : Prop :=
  (m.map Prod.fst).Nodup

theorem rootsToCounts_eq_foldl (t : TransformTree) :
    t.rootsToCounts = t.rootIds.foldl mapSetIncrement [] := by
  simp [TransformTree.rootsToCounts, TransformTree.rootIds, List.foldl_map]

theorem alLookup_map_incr (m : List (String × ℕ)) (k0 k : String) :
    alLookup (m.map (fun p => if p.1 = k0 then (p.1, p.2 + 1) else p)) k =
      if k = k0 then (alLookup m k0).map (fun n => n + 1) else alLookup m k := by
  induction m with
  | nil => by_cases hk : k = k0 <;> simp [alLookup, hk]
  | cons p ps ih =>
    rw [List.map_cons]
    by_cases hk0 : p.1 = k0
    · rw [if_pos hk0]
      by_cases hk : k = k0
      · have hpk : p.1 = k := hk0.trans hk.symm
        rw [if_pos hk]
        unfold alLookup
        rw [List.find?_cons_of_pos _ (by simpa using hpk),
            List.find?_cons_of_pos _ (by simpa using hk0)]
        simp
      · have hpk : ¬p.1 = k := fun hc => hk (hc.symm.trans hk0)
        rw [if_neg hk]
        unfold alLookup
        rw [List.find?_cons_of_neg _ (by simpa using hpk),
            List.find?_cons_of_neg _ (by simpa using hpk)]
        have h2 := ih
        unfold alLookup at h2
        rw [h2, if_neg hk]
    · rw [if_neg hk0]
      by_cases hpk : p.1 = k
      · have hk : ¬k = k0 := fun hc => hk0 (hpk.trans hc)
        rw [if_neg hk]
        unfold alLookup
        rw [List.find?_cons_of_pos _ (by simpa using hpk),
            List.find?_cons_of_pos _ (by simpa using hpk)]
      · unfold alLookup
        rw [List.find?_cons_of_neg _ (by simpa using hpk)]
        by_cases hk : k = k0
        · rw [if_pos hk, List.find?_cons_of_neg _ (by simpa using hk0)]
          have h2 := ih
          unfold alLookup at h2
          rw [h2, if_pos hk]
        · rw [if_neg hk, List.find?_cons_of_neg _ (by simpa using hpk)]
          have h2 := ih
          unfold alLookup at h2
          rw [h2, if_neg hk]

theorem alLookup_mapSetIncrement (m : List (String × ℕ)) (k0 k : String) :
    alLookup (mapSetIncrement m k0) k =
      if k = k0 then some ((alLookup m k0).getD 0 + 1) else alLookup m k := by
  simp only [mapSetIncrement]
  by_cases hmem : m.any (fun p => p.1 = k0) = true
  · rw [if_pos (by simpa using hmem), alLookup_map_incr]
    by_cases hk : k = k0
    · have hsome : (m.find? (fun p => p.1 = k0)).isSome = true := by
        rw [List.find?_isSome]
        simpa [List.any_eq_true] using hmem
      obtain ⟨e, he⟩ := Option.isSome_iff_exists.mp hsome
      have : alLookup m k0 = some e.2 := by simp [alLookup, he]
      simp [hk, this]
    · simp [hk]
  · rw [if_neg (by simpa using hmem)]
    have hnone : m.find? (fun p => p.1 = k0) = none := by
      rw [List.find?_eq_none]
      intro x hx
      simp only [List.any_eq_true, not_exists] at hmem
      intro hc
      exact hmem x ⟨hx, hc⟩
    by_cases hk : k = k0
    · subst hk
      simp [alLookup, List.find?_append, hnone]
    · have : ¬((k0, 1).1 = k) := fun hc => hk hc.symm
      simp only [alLookup, List.find?_append, List.find?_cons, this]
      cases hf : m.find? (fun p => p.1 = k) <;> simp [hk, List.find?_nil]

theorem alLookup_foldl (ks : List String) (m : List (String × ℕ)) (k : String) :
    alLookup (ks.foldl mapSetIncrement m) k =
      match alLookup m k with
      | some c => some (c + ks.count k)
      | none => if k ∈ ks then some (ks.count k) else none := by
  induction ks generalizing m with
  | nil =>
    cases hm : alLookup m k <;> simp [hm]
  | cons k0 ks ih =>
    rw [List.foldl_cons, ih, alLookup_mapSetIncrement]
    by_cases hk : k = k0
    · subst hk
      rw [if_pos rfl]
      cases hm : alLookup m k with
      | none =>
        simp only [hm, Option.getD_none, Nat.zero_add, List.count_cons, List.mem_cons,
          true_or, if_true, beq_self_eq_true]
        have : (1 : ℕ) + ks.count k = ks.count k + 1 := Nat.add_comm 1 _
        simp [this]
      | some c =>
        simp only [hm, Option.getD_some, List.count_cons, beq_self_eq_true, if_true]
        have : c + 1 + ks.count k = c + (ks.count k + 1) := by omega
        simp [this]
    · rw [if_neg hk]
      have hne : ¬(k0 == k) = true := by simpa using fun hc => hk hc.symm
      cases hm : alLookup m k with
      | none =>
        simp only [hm, List.count_cons, hne, if_false, List.mem_cons]
        have : ¬k = k0 := hk
        simp [this]
      | some c =>
        simp [hm, List.count_cons, hne]
  -- end

theorem keysNodup_mapSetIncrement (m : List (String × ℕ)) (k0 : String)
    (h : KeysNodup m) : KeysNodup (mapSetIncrement m k0) := by
  simp only [mapSetIncrement]
  by_cases hmem : m.any (fun p => p.1 = k0) = true
  · rw [if_pos (by simpa using hmem)]
    unfold KeysNodup at h ⊢
    have hmap : (m.map (fun p => if p.1 = k0 then (p.1, p.2 + 1) else p)).map Prod.fst =
        m.map Prod.fst := by
      rw [List.map_map]
      apply List.map_congr_left
      intro p _
      by_cases hp : p.1 = k0 <;> simp [hp]
    rw [hmap]
    exact h
  · rw [if_neg (by simpa using hmem)]
    unfold KeysNodup at h ⊢
    rw [List.map_append]
    rw [List.nodup_append]
    refine ⟨h, List.nodup_singleton _, ?_⟩
    intro a ha hb
    simp only [List.map_cons, List.map_nil, List.mem_singleton] at hb
    subst hb
    rcases List.mem_map.mp ha with ⟨p, hp, hpa⟩
    simp only [List.any_eq_true, not_exists] at hmem
    exact hmem p ⟨hp, by simpa using hpa⟩

theorem keysNodup_foldl (ks : List String) (m : List (String × ℕ)) (h : KeysNodup m) :
    KeysNodup (ks.foldl mapSetIncrement m) := by
  induction ks generalizing m with
  | nil => exact h
  | cons k0 ks ih => exact ih _ (keysNodup_mapSetIncrement m k0 h)

theorem alLookup_eq_of_mem (m : List (String × ℕ)) (h : KeysNodup m) (k : String) (c : ℕ)
    (hm : (k, c) ∈ m) : alLookup m k = some c := by
  induction m with
  | nil => cases hm
  | cons p ps ih =>
    rcases List.mem_cons.mp hm with heq | htail
    · subst heq
      simp [alLookup, List.find?_cons]
    · by_cases hpk : p.1 = k
      · exfalso
        unfold KeysNodup at h
        rw [List.map_cons, List.nodup_cons] at h
        exact h.1 (hpk ▸ List.mem_map.mpr ⟨(k, c), htail, rfl⟩)
      · unfold alLookup
        rw [List.find?_cons_of_neg _ (by simpa using hpk)]
        have h2 := ih (by
          unfold KeysNodup at h ⊢
          rw [List.map_cons, List.nodup_cons] at h
          exact h.2) htail
        unfold alLookup at h2
        exact h2

theorem head_insertionSort_max (l : List (String × ℕ)) (q : String × ℕ)
    (hq : (l.insertionSort byCountDesc).head? = some q) (p : String × ℕ) (hp : p ∈ l) :
    p.2 ≤ q.2 := by
  have hs : List.Sorted byCountDesc (l.insertionSort byCountDesc) :=
    List.sorted_insertionSort byCountDesc l
  have hperm : (l.insertionSort byCountDesc).Perm l := List.perm_insertionSort byCountDesc l
  have hp2 : p ∈ l.insertionSort byCountDesc := hperm.mem_iff.mpr hp
  cases hsort : l.insertionSort byCountDesc with
  | nil =>
    rw [hsort] at hp2
    cases hp2
  | cons a rest =>
    rw [hsort] at hq hp2 hs
    have ha : a = q := by simpa using hq
    subst ha
    rcases List.mem_cons.mp hp2 with heq | hrest
    · subst heq
      exact le_refl _
    · exact (List.sorted_cons.mp hs).1 p hrest

theorem countRootId_eq_count (t : TransformTree) (x : String) :
    t.countRootId x = t.rootIds.count x := by
  simp only [TransformTree.countRootId, TransformTree.rootIds, List.count_eq_countP,
    List.countP_map, ← List.countP_eq_length_filter]
  apply List.countP_congr
  intro f _
  simp [Function.comp, beq_iff_eq]

theorem alLookup_rootsToCounts (t : TransformTree) (k : String) :
    alLookup t.rootsToCounts k =
      if k ∈ t.rootIds then some (t.rootIds.count k) else none := by
  rw [rootsToCounts_eq_foldl, alLookup_foldl]
  rfl

/-- C4: when none of the preferred frame names is present in the tree,
defaultFrameId returns none exactly when the tree has no frames, and on a
non-empty tree returns the identifier of a root frame that maximizes the
number of known frames having that root; being a function of the state,
the tie-break is deterministic. -/
theorem C4_root_counting_fallback (r : RendererState)
    (hnone : ∀ fid ∈ DEFAULT_FRAME_IDS, r.transformTree.hasFrame fid = false) :
    (r.transformTree.frames = [] → r.defaultFrameId = none) ∧
    (r.transformTree.frames ≠ [] → ∃ rid,
      r.defaultFrameId = some rid ∧
      (∃ f ∈ r.transformTree.frames, (r.transformTree.rootOf f).id = rid) ∧
      ∀ g ∈ r.transformTree.frames,
        r.transformTree.countRootId (r.transformTree.rootOf g).id ≤
          r.transformTree.countRootId rid) := by
  have h1 := hnone "base_link" (by simp [DEFAULT_FRAME_IDS])
  have h2 := hnone "odom" (by simp [DEFAULT_FRAME_IDS])
  have h3 := hnone "map" (by simp [DEFAULT_FRAME_IDS])
  have h4 := hnone "earth" (by simp [DEFAULT_FRAME_IDS])
  have hdef : r.defaultFrameId =
      (r.transformTree.rootsToCounts.insertionSort byCountDesc).head?.map Prod.fst := by
    simp [RendererState.defaultFrameId, DEFAULT_FRAME_IDS, List.findSome?_cons,
      TransformTree.frame_map_id, h1, h2, h3, h4]
  have hnodup : KeysNodup r.transformTree.rootsToCounts := by
    rw [rootsToCounts_eq_foldl]
    exact keysNodup_foldl _ [] (by simp [KeysNodup])
  constructor
  · intro hempty
    rw [hdef]
    have hrc : r.transformTree.rootsToCounts = [] := by
      simp [TransformTree.rootsToCounts, hempty]
    simp [hrc]
  · intro hne
    obtain ⟨f0, hf0⟩ := List.exists_mem_of_ne_nil _ hne
    have hk0 : (r.transformTree.rootOf f0).id ∈ r.transformTree.rootIds :=
      List.mem_map.mpr ⟨f0, hf0, rfl⟩
    have hlook0 : alLookup r.transformTree.rootsToCounts (r.transformTree.rootOf f0).id =
        some (r.transformTree.rootIds.count (r.transformTree.rootOf f0).id) := by
      rw [alLookup_rootsToCounts, if_pos hk0]
    have hrne : r.transformTree.rootsToCounts ≠ [] := by
      intro hcontra
      rw [hcontra] at hlook0
      simp [alLookup] at hlook0
    have hsne : r.transformTree.rootsToCounts.insertionSort byCountDesc ≠ [] := by
      intro hcontra
      have hlen := (List.perm_insertionSort byCountDesc r.transformTree.rootsToCounts).length_eq
      rw [hcontra] at hlen
      exact hrne (List.eq_nil_of_length_eq_zero hlen.symm)
    obtain ⟨q, qs, hcons⟩ := List.exists_cons_of_ne_nil hsne
    have hq : (r.transformTree.rootsToCounts.insertionSort byCountDesc).head? = some q := by
      rw [hcons]
      rfl
    have hqmem : q ∈ r.transformTree.rootsToCounts := by
      have : q ∈ r.transformTree.rootsToCounts.insertionSort byCountDesc := by
        rw [hcons]
        exact List.mem_cons_self _ _
      exact (List.perm_insertionSort byCountDesc _).mem_iff.mp this
    have hlookq : alLookup r.transformTree.rootsToCounts q.1 = some q.2 :=
      alLookup_eq_of_mem _ hnodup q.1 q.2 hqmem
    have hq1mem : q.1 ∈ r.transformTree.rootIds := by
      by_contra hcontra
      rw [alLookup_rootsToCounts, if_neg hcontra] at hlookq
      cases hlookq
    have hqcount : r.transformTree.rootIds.count q.1 = q.2 := by
      rw [alLookup_rootsToCounts, if_pos hq1mem] at hlookq
      exact Option.some_injective _ hlookq
    refine ⟨q.1, ?_, ?_, ?_⟩
    · rw [hdef, hq]
      rfl
    · exact List.mem_map.mp hq1mem
    · intro g hg
      have hkg : (r.transformTree.rootOf g).id ∈ r.transformTree.rootIds :=
        List.mem_map.mpr ⟨g, hg, rfl⟩
      have hlookg : alLookup r.transformTree.rootsToCounts (r.transformTree.rootOf g).id =
          some (r.transformTree.rootIds.count (r.transformTree.rootOf g).id) := by
        rw [alLookup_rootsToCounts, if_pos hkg]
      obtain ⟨e, hfind, he2⟩ : ∃ e, r.transformTree.rootsToCounts.find?
          (fun p => p.1 = (r.transformTree.rootOf g).id) = some e ∧
          e.2 = r.transformTree.rootIds.count (r.transformTree.rootOf g).id := by
        unfold alLookup at hlookg
        cases hfind : r.transformTree.rootsToCounts.find?
            (fun p => p.1 = (r.transformTree.rootOf g).id) with
        | none =>
          rw [hfind] at hlookg
          cases hlookg
        | some e =>
          rw [hfind] at hlookg
          exact ⟨e, rfl, by simpa using hlookg⟩
      have hemem : e ∈ r.transformTree.rootsToCounts := List.mem_of_find?_eq_some hfind
      have hle : e.2 ≤ q.2 := head_insertionSort_max _ q hq e hemem
      rw [countRootId_eq_count, countRootId_eq_count, hqcount, ← he2]
      exact hle

/-- fallbackState is a concrete state with two frames rooted at a
non-preferred frame name, used to instantiate the fallback theorem. -/
def fallbackState : RendererState :=
  { transformTree :=
      { maxStorageTime := 0,
        frames :=
          [{ id := "w", edges := [] },
           { id := "a",
             edges := [{ stamp := 0, parentId := "w",
                         transform := { translation := { x := 0, y := 0, z := 0 },
                                        rotation := { x := 0, y := 0, z := 0, w := 1 } } }] }] },
    coordinateFrameList := [], renderFrameId := none, fixedFrameId := none }

theorem C4_witness :
    (∀ fid ∈ DEFAULT_FRAME_IDS, fallbackState.transformTree.hasFrame fid = false) ∧
    (∃ rid, fallbackState.defaultFrameId = some rid ∧
      (∃ f ∈ fallbackState.transformTree.frames,
        (fallbackState.transformTree.rootOf f).id = rid) ∧
      ∀ g ∈ fallbackState.transformTree.frames,
        fallbackState.transformTree.countRootId (fallbackState.transformTree.rootOf g).id ≤
          fallbackState.transformTree.countRootId rid) :=
  ⟨by decide, (C4_root_counting_fallback fallbackState (by decide)).2 (by decide)⟩

theorem C7_witness :
    ("body" : String) ≠ "map" ∧
    (∃ f, (({ transformTree := { maxStorageTime := 0, frames := [] },
              coordinateFrameList := [], renderFrameId := none,
              fixedFrameId := none } : RendererState).addTransformMessage
        { header := { frame_id := "map", stamp := { sec := 2, nsec := 5 } },
          child_frame_id := "body",
          transform := { translation := { x := 0, y := 0, z := 0 },
                         rotation := { x := 0, y := 0, z := 0, w := 0 } } }).1.transformTree.frame
        "body" = some f ∧
      ({ stamp := 2000000005, parentId := "map",
         transform := { translation := { x := 0, y := 0, z := 0 },
                        rotation := { x := 0, y := 0, z := 0, w := 0 } } } : FrameEdge) ∈
        f.edges) :=
  ⟨by decide, C7_amended_no_validation _ _ (by decide)⟩

end FGS
